import Mathlib

/-!
Verification development for the fetch-gate / fetch-proxy request-forwarding
core.  The definitions below are a shallow embedding of the TypeScript
sources (`src/utils.ts`, `src/url-cache.ts`, the circuit breaker, and
`src/proxy.ts`).  Pure string functions are translated directly; the
stateful circuit breaker and the `proxy` pipeline are embedded as explicit
state-passing functions over a per-call environment that records the
outcome of the (external) network fetch and the behaviour of the
caller-supplied hooks.  Wall-clock time is an explicit `Nat` parameter;
each call is modelled with a single time stamp (the code reads `Date.now()`
several times during one call, but within one call those reads can only
differ by the call's own duration, which the claims do not depend on).
-/

namespace FetchGate

/-! ### JavaScript string primitives

`jsIncludes` is `String.prototype.includes`, `jsTrim` is
`String.prototype.trim` (JS WhiteSpace plus LineTerminator code points),
`jsToUpper` is `String.prototype.toUpperCase` restricted to the ASCII
case mapping, and `jsHasWhitespace` is the regex test `/\s/`.
-/

def hasPrefixL : List Char → List Char → Bool
  | _, [] => true
  | [], _ :: _ => false
  | a :: s, b :: p => a == b && hasPrefixL s p

def includesL (pat : List Char) : List Char → Bool
  | [] => hasPrefixL [] pat
  | c :: t => hasPrefixL (c :: t) pat || includesL pat t

def jsIncludes (s pat : String) : Bool := includesL pat.toList s.toList

/-- `String.prototype.startsWith`. -/
def jsStartsWith (s pat : String) : Bool := hasPrefixL s.toList pat.toList

/-- The code points matched by JS `\s` and removed by `String.prototype.trim`. -/
def jsWhitespaceChar (c : Char) : Bool :=
  c.toNat == 9 || c.toNat == 10 || c.toNat == 11 || c.toNat == 12 ||
  c.toNat == 13 || c.toNat == 32 || c.toNat == 160 || c.toNat == 0x1680 ||
  (0x2000 ≤ c.toNat && c.toNat ≤ 0x200A) || c.toNat == 0x2028 ||
  c.toNat == 0x2029 || c.toNat == 0x202F || c.toNat == 0x205F ||
  c.toNat == 0x3000 || c.toNat == 0xFEFF

def jsTrim (s : String) : String :=
  String.mk (((s.toList.dropWhile jsWhitespaceChar).reverse.dropWhile
    jsWhitespaceChar).reverse)

def jsToUpper (s : String) : String := String.mk (s.toList.map Char.toUpper)

def jsHasWhitespace (s : String) : Bool := s.toList.any jsWhitespaceChar

/-! ### `validateHttpMethod` (src/utils.ts) -/

def ALLOWED_HTTP_METHODS : List String :=
  ["GET", "POST", "PUT", "PATCH", "DELETE", "HEAD", "OPTIONS"]

/-- Translation of `validateHttpMethod` from `src/utils.ts`.  The logger
side channel is dropped (purely observational).  Non-string inputs are
excluded by typing; `!method` is the empty-string test. -/
def validateHttpMethod (method : String) : Except String Unit :=
  if method = "" then
    .error "HTTP method must be a non-empty string"
  else
    let normalizedMethod := jsTrim (jsToUpper method)
    if jsIncludes normalizedMethod "\r" || jsIncludes normalizedMethod "\n" ||
        jsIncludes normalizedMethod "\x00" then
      .error ("HTTP method \x27" ++ method ++
        "\x27 contains forbidden characters (CRLF or null bytes)")
    else if jsHasWhitespace normalizedMethod then
      .error ("HTTP method \x27" ++ method ++
        "\x27 contains invalid characters (spaces)")
    else if ¬ (ALLOWED_HTTP_METHODS.contains normalizedMethod) then
      .error ("HTTP method " ++ method ++
        " is not allowed. Only GET, POST, PUT, PATCH, DELETE, HEAD, OPTIONS methods are permitted.")
    else
      .ok ()

/-! ### `normalizeSecurePath` (src/utils.ts) -/

/-- `split("/")` on the character list of a string. -/
def splitOnSlashL : List Char → List (List Char)
  | [] => [[]]
  | c :: t =>
    if c = '/' then [] :: splitOnSlashL t
    else
      match splitOnSlashL t with
      | [] => [[c]]
      | seg :: rest => (c :: seg) :: rest

/-- `split("/")`. -/
def splitOnSlash (s : String) : List String :=
  (splitOnSlashL s.toList).map String.mk

/-- `Array.prototype.join("/")`. -/
def joinSlash : List String → String
  | [] => ""
  | [s] => s
  | s :: t => s ++ "/" ++ joinSlash t

/-- The `..`-popping loop of `normalizeSecurePath`: a `..` pops the last
retained segment when one exists and is silently dropped otherwise. -/
def normalizeSegments (segments : List String) : List String :=
  segments.foldl
    (fun acc seg => if seg = ".." then acc.dropLast else acc ++ [seg]) []

/-- The pure path-rewriting part of `normalizeSecurePath`: split on `/`,
discard empty and `.` segments, resolve `..`, rejoin with a leading `/`. -/
def normalizePathOnly (inputPath : String) : String :=
  "/" ++ joinSlash
    (normalizeSegments
      ((splitOnSlash inputPath).filter (fun s => s != "" && s != ".")))

/-- Translation of `normalizeSecurePath` from `src/utils.ts`. -/
def normalizeSecurePath (inputPath allowedPfx : String) :
    Except String String :=
  if inputPath = "" || jsTrim inputPath = "" then
    .error "Path must be a non-empty string"
  else if allowedPfx = "" || jsTrim allowedPfx = "" then
    .error "Allowed prefix must be a non-empty string"
  else if jsIncludes inputPath "\x00" then
    .error "Path contains null bytes"
  else
    let normalizedPath := normalizePathOnly inputPath
    if ¬ (jsStartsWith normalizedPath allowedPfx = true) then
      .error ("Path traversal attempt detected. Path must start with: " ++
        allowedPfx)
    else
      .ok normalizedPath

/-! ### `buildURL` (src/utils.ts)

The WHATWG `URL` platform primitive is modelled for the fragment of inputs
the forwarding layer deals with: absolute URLs of the shape
`scheme://host/path` and path-absolute references resolved against such a
base.  Userinfo, ports, query strings and fragments are not modelled; a
parse failure is the `TypeError` thrown by `new URL`. -/

structure URLRec where
  protocol : String
  hostname : String
  pathname : String
deriving DecidableEq

def jsToLower (s : String) : String := String.mk (s.toList.map Char.toLower)

/-- Split a character list at the first occurrence of `://`, if any. -/
def splitScheme : List Char → Option (List Char × List Char)
  | [] => none
  | c :: t =>
    if hasPrefixL (c :: t) [':', '/', '/'] then some ([], t.drop 2)
    else
      match splitScheme t with
      | none => none
      | some (pre, post) => some (c :: pre, post)

def schemeChars (cs : List Char) : Bool :=
  cs.all (fun c => c.isAlphanum || c == '+' || c == '-' || c == '.')

def schemeOk (s : String) : Bool :=
  match s.toList with
  | [] => false
  | c :: cs => c.isAlpha && schemeChars cs

/-- Modelled platform primitive `new URL(s)` for `scheme://host/path`
inputs (scheme and host are lowercased, an empty path reads as `/`). -/
def parseURL (s : String) : Except String URLRec :=
  match splitScheme s.toList with
  | none => .error "Invalid URL"
  | some (schemeCs, remainder) =>
    let scheme := String.mk schemeCs
    if ¬ (schemeOk scheme = true) then .error "Invalid URL"
    else
      let host := String.mk (remainder.takeWhile (fun c => c ≠ '/'))
      let path := String.mk (remainder.dropWhile (fun c => c ≠ '/'))
      if host = "" then .error "Invalid URL"
      else
        .ok ⟨jsToLower scheme ++ ":", jsToLower host,
          if path = "" then "/" else path⟩

/-- Modelled platform primitive `new URL(source, base)` for the inputs the
claims exercise: an absolute source stands alone, a path-absolute source
replaces the base path, any other source is resolved against the base
directory. -/
def resolveURL (source base : String) : Except String URLRec := do
  if jsIncludes source "://" then parseURL source
  else
    let b ← parseURL base
    if source = "" then pure b
    else if jsStartsWith source "/" then pure ⟨b.protocol, b.hostname, source⟩
    else
      let dir := String.mk
        ((b.pathname.toList.reverse.dropWhile (fun c => c ≠ '/')).reverse)
      pure ⟨b.protocol, b.hostname, dir ++ source⟩

def ALLOWED_PROTOCOLS : List String := ["http:", "https:"]

/-- The resolution phase of `buildURL`: everything after the
protocol-relative check and the leading-slash collapsing. -/
def buildURLResolvePhase (source base : String) : Except String URLRec := do
  let url ←
    (if base ≠ "" then do
      let baseUrl ← parseURL base
      let url ← resolveURL source base
      if url.hostname ≠ baseUrl.hostname ∧ jsStartsWith source "/" = true ∧
          ¬ (jsIncludes source "://" = true) then
        Except.error "Domain override not allowed in relative URLs"
      else pure url
    else parseURL source)
  if ¬ (ALLOWED_PROTOCOLS.contains url.protocol) then
    Except.error ("Unsupported protocol: " ++ url.protocol ++
      ". Only HTTP and HTTPS are allowed.")
  else pure url

/-- The `source.replace(/^\/+/, "/")` step. -/
def collapseLeadingSlashes (s : String) : String :=
  if jsStartsWith s "/" then
    "/" ++ String.mk (s.toList.dropWhile (fun c => c == '/'))
  else s

/-- Translation of `buildURL` from `src/utils.ts` (an absent `base` and an
empty-string `base` are both falsy in the source, so `base` is a plain
string here with `""` for absent). -/
def buildURL (source base : String) : Except String URLRec :=
  if base ≠ "" ∧ jsStartsWith source "//" = true ∧
      ¬ (jsStartsWith source "///" = true) then
    .error "Protocol override not allowed in relative URLs"
  else
    let source1 :=
      if ¬ (jsIncludes source "://" = true) ∧ jsStartsWith source "/" = true then
        collapseLeadingSlashes source
      else source
    buildURLResolvePhase source1 base

/-! ### `URLCache` (src/url-cache.ts)

A JS `Map` is modelled as an insertion-ordered association list with
unique keys: `Map.get` looks up, `Map.set` updates in place (keeping the
key's original position) or appends, `Map.delete` removes, and
`keys().next().value` is the head key.  The cache itself is the pair of a
fixed `maxSize` and the current list. -/

def mapGet {V : Type} : List (String × V) → String → Option V
  | [], _ => none
  | (k0, v0) :: t, k => if k0 = k then some v0 else mapGet t k

def mapSet {V : Type} : List (String × V) → String → V → List (String × V)
  | [], k, v => [(k, v)]
  | (k0, v0) :: t, k, v =>
    if k0 = k then (k0, v) :: t else (k0, v0) :: mapSet t k v

def mapDelete {V : Type} (l : List (String × V)) (k : String) :
    List (String × V) :=
  l.filter (fun p => p.1 != k)

/-- Translation of `URLCache.get`. -/
def URLCache.get {V : Type} (maxSize : Nat) (cache : List (String × V))
    (key : String) : Option V :=
  if maxSize = 0 then none else mapGet cache key

/-- Translation of `URLCache.set`.  Note the source's `if (firstKey)`
guard: a falsy first key (`undefined` on an empty map, or the empty
string) is not deleted, so in that corner no eviction happens. -/
def URLCache.set {V : Type} (maxSize : Nat) (cache : List (String × V))
    (key : String) (url : V) : List (String × V) :=
  if maxSize = 0 then cache
  else
    let cache1 :=
      if cache.length ≥ maxSize then
        match cache with
        | [] => cache
        | (firstKey, _) :: _ =>
          if firstKey = "" then cache else mapDelete cache firstKey
      else cache
    mapSet cache1 key url

/-- Inserting a list of keys in order, each with value `f k`, starting
from the empty cache. -/
def insertKeys {V : Type} (maxSize : Nat) (f : String → V)
    (ks : List String) : List (String × V) :=
  ks.foldl (fun c k => URLCache.set maxSize c k (f k)) []

/-! ### `CircuitBreaker` (src/circuit-breaker.ts) -/

inductive CircuitState
  | CLOSED
  | OPEN
  | HALF_OPEN
deriving DecidableEq

structure CircuitBreakerOptions where
  failureThreshold : Nat
  resetTimeout : Nat
  timeout : Nat
  enabled : Bool
deriving DecidableEq

structure CBState where
  failures : Nat
  lastFailureTime : Nat
  state : CircuitState
deriving DecidableEq

/-- `failures = 0`, `lastFailureTime = 0`, `state = CLOSED`. -/
def initialCBState : CBState := ⟨0, 0, .CLOSED⟩

/-- A JS `Error` value: its `name` and `message`. -/
structure JsError where
  name : String
  message : String
deriving DecidableEq

instance {ε α : Type} [DecidableEq ε] [DecidableEq α] :
    DecidableEq (Except ε α) := fun x y =>
  match x, y with
  | .ok a, .ok b =>
    if h : a = b then isTrue (by rw [h])
    else isFalse (by intro hh; cases hh; exact h rfl)
  | .error a, .error b =>
    if h : a = b then isTrue (by rw [h])
    else isFalse (by intro hh; cases hh; exact h rfl)
  | .ok _, .error _ => isFalse (by intro h; cases h)
  | .error _, .ok _ => isFalse (by intro h; cases h)

def circuitOpenError : JsError := ⟨"Error", "Circuit breaker is OPEN"⟩

def circuitTimeoutError : JsError := ⟨"Error", "Circuit breaker timeout"⟩

/-- Translation of `CircuitBreaker.recordFailure`: increment the counter,
stamp the failure time only if not already OPEN, trip to OPEN at the
threshold. -/
def recordFailure (o : CircuitBreakerOptions) (st : CBState) (now : Nat) :
    CBState :=
  let failures := st.failures + 1
  let last := if st.state ≠ .OPEN then now else st.lastFailureTime
  let s := if failures ≥ o.failureThreshold then .OPEN else st.state
  ⟨failures, last, s⟩

/-- Translation of `CircuitBreaker.reset`. -/
def resetCB (st : CBState) : CBState := ⟨0, st.lastFailureTime, .CLOSED⟩

/-- Translation of `CircuitBreaker.getState`: reading the state while OPEN
after the reset window opportunistically transitions to HALF_OPEN. -/
def getState (o : CircuitBreakerOptions) (st : CBState) (now : Nat) :
    CircuitState × CBState :=
  if st.state = .OPEN ∧ now - st.lastFailureTime > o.resetTimeout then
    (.HALF_OPEN, { st with state := .HALF_OPEN })
  else (st.state, st)

/-- Translation of `CircuitBreaker.getFailures`. -/
def getFailures (st : CBState) : Nat := st.failures

structure CBExecResult (A : Type) where
  result : Except JsError A
  state : CBState
  invoked : Bool
deriving DecidableEq

/-- Translation of `CircuitBreaker.execute`.  The raced outcome of
`Promise.race([fn(), timer])` is supplied by the caller as `raced` (the
timer rejecting first is `circuitTimeoutError`); `invoked` records
whether `fn` was started (false only on the OPEN fast-fail path). -/
def CircuitBreaker.execute {A : Type} (o : CircuitBreakerOptions)
    (st : CBState) (now : Nat) (raced : Except JsError A) : CBExecResult A :=
  if ¬ (o.enabled = true) then ⟨raced, st, true⟩
  else if st.state = .OPEN ∧ ¬ (now - st.lastFailureTime > o.resetTimeout) then
    ⟨.error circuitOpenError, st, false⟩
  else
    let st1 := if st.state = .OPEN then { st with state := .HALF_OPEN } else st
    match raced with
    | .ok a =>
      ⟨.ok a, if st1.state = .HALF_OPEN then resetCB st1 else st1, true⟩
    | .error e => ⟨.error e, recordFailure o st1 now, true⟩

/-- Iterate `execute` over a list of call times, the operation failing
with `e` each time. -/
def runFailingCalls (o : CircuitBreakerOptions) (e : JsError) :
    CBState → List Nat → CBState
  | st, [] => st
  | st, t :: ts =>
    runFailingCalls o e
      (CircuitBreaker.execute o st t (Except.error e : Except JsError Unit)).state ts

/-! ### The `FetchProxy.proxy` pipeline (src/proxy.ts)

A call's environment fixes everything external to the orchestration
logic: the behaviour of each caller-supplied hook, the outcome of the
pre-fetch phase (method validation, URL building, header and query
preparation — all of which either succeed or throw), the outcome of the
outbound `fetch`, and whether the breaker's race timer settled before the
fetch.  When the timer settles first the operation is abandoned mid-race;
hook invocations that the abandoned continuation would perform later are
outside the single-call model. -/

structure Resp where
  status : Nat
  statusText : String
  body : String
deriving DecidableEq

/-- A hook slot: absent, present and succeeding, or present and throwing. -/
inductive HookB
  | absent
  | ok
  | throws (e : JsError)
deriving DecidableEq

def HookB.isThrow : HookB → Bool
  | .throws _ => true
  | _ => false

def HookB.isPresent : HookB → Bool
  | .absent => false
  | _ => true

structure Hooks where
  beforeRequest : HookB
  beforeCircuitBreakerExecution : HookB
  afterResponse : HookB
  afterCircuitBreakerExecution : HookB
  onError : HookB
deriving DecidableEq

def noHooks : Hooks := ⟨.absent, .absent, .absent, .absent, .absent⟩

def allOkHooks : Hooks := ⟨.ok, .ok, .ok, .ok, .ok⟩

/-- Observable hook invocations, in order. -/
inductive HookEv
  | beforeRequest
  | beforeCircuitBreakerExecution
  | afterResponse
  | afterCircuitBreakerExecution
  | onError
deriving DecidableEq

/-- What the outbound `fetch` does once dispatched: resolve with a
response, or reject with an error (`name = "AbortError"` is the per-call
timeout firing the abort controller). -/
inductive FetchOutcome
  | resolved (r : Resp)
  | rejected (e : JsError)
deriving DecidableEq

structure CallEnv where
  hooks : Hooks
  prep : Except JsError Unit
  fetch : FetchOutcome
  timerFirst : Bool
  now : Nat
deriving DecidableEq

def CallEnv.prepOk (env : CallEnv) : Bool :=
  match env.prep with
  | .ok _ => true
  | .error _ => false

structure ExecResult where
  result : Except JsError Resp
  events : List HookEv
  dispatched : Bool
deriving DecidableEq

/-- The catch block of `executeRequest`: an `AbortError` becomes a
`Request timeout` error, anything else is rethrown. -/
def execCatch (e : JsError) : JsError :=
  if e.name = "AbortError" then ⟨"Error", "Request timeout"⟩ else e

/-- Translation of `FetchProxy.executeRequest`: validation and URL/header
preparation (`prep`), the fetch, the manual-redirect early return, and
the success-path `afterResponse` hook. -/
def executeRequest (followRedirects : Bool) (h : Hooks)
    (prep : Except JsError Unit) (fo : FetchOutcome) : ExecResult :=
  match prep with
  | .error e => ⟨.error (execCatch e), [], false⟩
  | .ok _ =>
    match fo with
    | .rejected e => ⟨.error (execCatch e), [], true⟩
    | .resolved r =>
      if ¬ (followRedirects = true) ∧ 300 ≤ r.status ∧ r.status < 400 then
        ⟨.ok r, [], true⟩
      else
        match h.afterResponse with
        | .absent => ⟨.ok r, [], true⟩
        | .ok => ⟨.ok r, [.afterResponse], true⟩
        | .throws e => ⟨.error (execCatch e), [.afterResponse], true⟩

/-- The operation handed to the circuit breaker in `proxy`: run
`executeRequest`, then raise synthetically on any status `>= 500` so the
breaker counts it as a failure. -/
def innerOperation (followRedirects : Bool) (h : Hooks)
    (prep : Except JsError Unit) (fo : FetchOutcome) : ExecResult :=
  let r := executeRequest followRedirects h prep fo
  match r.result with
  | .ok res =>
    if res.status ≥ 500 then
      { r with result := .error ⟨"Error",
          "Server error: " ++ toString res.status ++ " " ++ res.statusText⟩ }
    else r
  | .error _ => r

/-- The error classification of `proxy`'s catch block: the synthesized
status and body. -/
def classify (e : JsError) : Nat × String :=
  if jsIncludes e.message "Circuit breaker is OPEN" then
    (503, "Service Unavailable")
  else if jsIncludes e.message "timeout" || e.name = "TimeoutError" then
    (504, "Gateway Timeout")
  else if jsIncludes e.message "HTTP method" ||
      jsIncludes e.message "Unsupported protocol" ||
      jsIncludes e.message "Protocol override not allowed" ||
      jsIncludes e.message "Domain override not allowed" ||
      jsIncludes e.message "Invalid header" ||
      jsIncludes e.message "forbidden characters" then
    (400, "Bad Request: " ++ e.message)
  else (502, "Bad Gateway")

/-- The `new Response(text, { status })` built in `proxy`'s catch block. -/
def synthResponse (e : JsError) : Resp :=
  ⟨(classify e).1, "", (classify e).2⟩

structure ProxyConfig where
  followRedirects : Bool
  cb : CircuitBreakerOptions
deriving DecidableEq

structure ProxyOutcome where
  /-- `.error e` means `proxy` itself raised `e` to its caller; `.ok (r, b)`
  returns response `r`, with `b = true` iff `r` was synthesized in the
  catch handler. -/
  result : Except JsError (Resp × Bool)
  events : List HookEv
  breaker : CBState
  dispatched : Bool
deriving DecidableEq

/-- The catch block of `proxy`: run `onError` (a throw here propagates out
of `proxy`), then the after-circuit-breaker hook (likewise), then classify
the error into a synthesized response. -/
def proxyCatch (h : Hooks) (evs : List HookEv) (e : JsError) (st : CBState)
    (disp : Bool) : ProxyOutcome :=
  match h.onError with
  | .throws e2 => ⟨.error e2, evs ++ [.onError], st, disp⟩
  | oe =>
    let evs1 := evs ++ (if oe.isPresent then [HookEv.onError] else [])
    match h.afterCircuitBreakerExecution with
    | .throws e3 => ⟨.error e3, evs1 ++ [.afterCircuitBreakerExecution], st, disp⟩
    | acb =>
      let evs2 := evs1 ++
        (if acb.isPresent then [HookEv.afterCircuitBreakerExecution] else [])
      ⟨.ok (synthResponse e, true), evs2, st, disp⟩

/-- The tail of `proxy` after `CircuitBreaker.execute` has settled: on
success run the after-circuit-breaker hook and return the response, on
failure enter the catch handler.  When the breaker's race timer settled
first (`timedOut`), the operation was abandoned mid-race, so the events
of its continuation do not occur within the call (the fetch itself was
already dispatched). -/
def proxyFinish (h : Hooks) (evsPre : List HookEv) (inner : ExecResult)
    (timedOut : Bool) (cbr : CBExecResult Resp) : ProxyOutcome :=
  let innerEvs :=
    if cbr.invoked then (if timedOut = true then [] else inner.events) else []
  let disp := cbr.invoked && (if timedOut = true then true else inner.dispatched)
  let evs := evsPre ++ innerEvs
  match cbr.result with
  | .error e => proxyCatch h evs e cbr.state disp
  | .ok r =>
    match h.afterCircuitBreakerExecution with
    | .absent => ⟨.ok (r, false), evs, cbr.state, disp⟩
    | .ok =>
      ⟨.ok (r, false), evs ++ [.afterCircuitBreakerExecution], cbr.state, disp⟩
    | .throws e =>
      proxyCatch h (evs ++ [.afterCircuitBreakerExecution]) e cbr.state disp

/-- Translation of `FetchProxy.proxy`: the before hooks, the
circuit-breaker-wrapped dispatch, the success-path after-circuit-breaker
hook, and the catch handler.  `timedOut` is the breaker's race timer
settling before the fetch (only possible when the breaker is enabled and
the operation did not already reject during preparation). -/
def FetchProxy.proxy (cfg : ProxyConfig) (st : CBState) (env : CallEnv) :
    ProxyOutcome :=
  match env.hooks.beforeRequest with
  | .throws e => proxyCatch env.hooks [.beforeRequest] e st false
  | br =>
    let evs0 := if br.isPresent then [HookEv.beforeRequest] else []
    match env.hooks.beforeCircuitBreakerExecution with
    | .throws e =>
      proxyCatch env.hooks (evs0 ++ [.beforeCircuitBreakerExecution]) e st false
    | bcb =>
      let evsPre := evs0 ++
        (if bcb.isPresent then [HookEv.beforeCircuitBreakerExecution] else [])
      let inner := innerOperation cfg.followRedirects env.hooks env.prep env.fetch
      let timedOut := cfg.cb.enabled && env.timerFirst && env.prepOk
      let raced : Except JsError Resp :=
        if timedOut = true then .error circuitTimeoutError else inner.result
      proxyFinish env.hooks evsPre inner timedOut
        (CircuitBreaker.execute cfg.cb st env.now raced)

/-- Whether `proxy` raised an exception to its caller. -/
def ProxyOutcome.threw (p : ProxyOutcome) : Bool :=
  match p.result with
  | .error _ => true
  | .ok _ => false

/-- If the returned response was synthesized in the catch handler, its
status is one of the four internally produced codes. -/
def internalStatusOk (p : ProxyOutcome) : Bool :=
  match p.result with
  | .ok (r, true) =>
    (r.status == 400) || (r.status == 502) || (r.status == 503) ||
      (r.status == 504)
  | .ok (_, false) => true
  | .error _ => false

/-! ### Concrete per-claim scenario data -/

/-- A target that always answers status 500. -/
def serverError500 : Resp := ⟨500, "Internal Server Error", ""⟩

/-- One `proxy` call against the always-500 target, no hooks, at time `t`. -/
def call500Env (t : Nat) : CallEnv :=
  ⟨noHooks, .ok (), .resolved serverError500, false, t⟩

/-- A Forwarder configured with `failureThreshold = 2`. -/
def threshold2Config (resetT cbTimeout : Nat) : ProxyConfig :=
  ⟨false, ⟨2, resetT, cbTimeout, true⟩⟩

/-! ## Shared lemmas -/

theorem allowed_clean (n : String) (h : ALLOWED_HTTP_METHODS.contains n = true) :
    (jsIncludes n "\r" || jsIncludes n "\n" || jsIncludes n "\x00") = false ∧
    jsHasWhitespace n = false := by
  have hmem : n ∈ ALLOWED_HTTP_METHODS := by
    simpa using h
  fin_cases hmem <;> constructor <;> decide

theorem threeSlash_two {l : List Char} (h : hasPrefixL l ['/', '/', '/'] = true) :
    hasPrefixL l ['/', '/'] = true ∧ hasPrefixL l ['/'] = true := by
  match l with
  | a :: b :: c :: t =>
    simp [hasPrefixL] at h
    simp [hasPrefixL, h.1, h.2.1]
  | [] => simp [hasPrefixL] at h
  | [a] => simp [hasPrefixL] at h
  | [a, b] => simp [hasPrefixL] at h

theorem mapSet_append {V : Type} (l : List (String × V)) (k : String) (v : V)
    (h : k ∉ l.map Prod.fst) : mapSet l k v = l ++ [(k, v)] := by
  induction l with
  | nil => rfl
  | cons p t ih =>
    simp only [List.map_cons, List.mem_cons] at h
    push_neg at h
    simp only [mapSet, if_neg (Ne.symm h.1)]
    rw [ih h.2]
    simp

theorem mapGet_map_mem {V : Type} (ks : List String) (f : String → V)
    (k : String) (hmem : k ∈ ks) (hnd : ks.Nodup) :
    mapGet (ks.map (fun x => (x, f x))) k = some (f k) := by
  induction ks with
  | nil => cases hmem
  | cons a t ih =>
    simp only [List.map_cons, mapGet]
    rcases List.mem_cons.mp hmem with h | h
    · rw [if_pos h.symm, h]
    · have hnd2 := List.nodup_cons.mp hnd
      rw [if_neg (fun hak => hnd2.1 (by rw [hak]; exact h)), ih h hnd2.2]

theorem mapGet_map_none {V : Type} (ks : List String) (f : String → V)
    (k : String) (hmem : k ∉ ks) :
    mapGet (ks.map (fun x => (x, f x))) k = none := by
  induction ks with
  | nil => rfl
  | cons a t ih =>
    simp only [List.mem_cons] at hmem
    push_neg at hmem
    simp only [List.map_cons, mapGet, if_neg (Ne.symm hmem.1)]
    exact ih hmem.2

theorem mapDelete_map {V : Type} (ks : List String) (f : String → V)
    (k0 : String) (h : k0 ∉ ks) :
    mapDelete (ks.map (fun x => (x, f x))) k0 = ks.map (fun x => (x, f x)) := by
  induction ks with
  | nil => rfl
  | cons a t ih =>
    simp only [List.mem_cons] at h
    push_neg at h
    simp only [List.map_cons, mapDelete, List.filter]
    have hne : (a != k0) = true := by simpa using Ne.symm h.1
    simp only [mapDelete] at ih
    simp [hne, ih h.2]

theorem cacheFill {V : Type} (c : Nat) (f : String → V) :
    ∀ (ks : List String) (init : List (String × V)),
    (∀ k ∈ ks, k ∉ init.map Prod.fst) → ks.Nodup →
    init.length + ks.length ≤ c →
    List.foldl (fun cch k => URLCache.set c cch k (f k)) init ks =
      init ++ ks.map (fun k => (k, f k)) := by
  intro ks
  induction ks with
  | nil => intro init _ _ _; simp
  | cons a t ih =>
    intro init hdisj hnd hlen
    simp only [List.length_cons] at hlen
    have hc0 : c ≠ 0 := by omega
    have hlt : ¬ (init.length ≥ c) := by omega
    have hset : URLCache.set c init a (f a) = init ++ [(a, f a)] := by
      rw [URLCache.set.eq_def, if_neg hc0, if_neg hlt]
      exact mapSet_append init a (f a) (hdisj a (List.mem_cons_self a t))
    simp only [List.foldl_cons, hset]
    have hnd2 := List.nodup_cons.mp hnd
    rw [ih (init ++ [(a, f a)])
      (by
        intro k hk
        simp only [List.map_append, List.mem_append, List.map_cons,
          List.map_nil, List.mem_singleton]
        push_neg
        exact ⟨hdisj k (List.mem_cons_of_mem a hk),
          fun he => hnd2.1 (by rw [← he]; exact hk)⟩)
      hnd2.2
      (by
        simp only [List.length_append, List.length_cons, List.length_nil]
        omega)]
    simp

theorem execute_closed_fail (o : CircuitBreakerOptions) (e : JsError)
    (ho : o.enabled = true) (k l t : Nat) :
    (CircuitBreaker.execute o ⟨k, l, .CLOSED⟩ t
        (Except.error e : Except JsError Unit)).state =
      ⟨k + 1, t, if k + 1 ≥ o.failureThreshold then .OPEN else .CLOSED⟩ := by
  simp [CircuitBreaker.execute, recordFailure, ho]

theorem runFail_closed (o : CircuitBreakerOptions) (e : JsError)
    (ho : o.enabled = true) :
    ∀ (ts : List Nat) (k l : Nat), k < o.failureThreshold →
    k + ts.length ≤ o.failureThreshold →
    (runFailingCalls o e ⟨k, l, .CLOSED⟩ ts).failures = k + ts.length ∧
    (runFailingCalls o e ⟨k, l, .CLOSED⟩ ts).state =
      (if o.failureThreshold ≤ k + ts.length then CircuitState.OPEN
       else .CLOSED) := by
  intro ts
  induction ts with
  | nil =>
    intro k l hk _
    constructor
    · rfl
    · rw [runFailingCalls, if_neg (by simp only [List.length_nil]; omega)]
  | cons t ts ih =>
    intro k l hk hlen
    simp only [List.length_cons] at hlen
    have hstep :
        (CircuitBreaker.execute o ⟨k, l, .CLOSED⟩ t
            (Except.error e : Except JsError Unit)).state =
          ⟨k + 1, t, if k + 1 ≥ o.failureThreshold then .OPEN else .CLOSED⟩ :=
      execute_closed_fail o e ho k l t
    rcases Nat.lt_or_ge (k + 1) o.failureThreshold with h1 | h1
    · rw [runFailingCalls, hstep, if_neg (by omega)]
      have := ih (k + 1) t h1 (by omega)
      constructor
      · rw [this.1]; simp only [List.length_cons]; omega
      · rw [this.2]
        by_cases hc : o.failureThreshold ≤ k + 1 + ts.length
        · rw [if_pos hc, if_pos (by simp only [List.length_cons]; omega)]
        · rw [if_neg hc, if_neg (by simp only [List.length_cons]; omega)]
    · have hk1 : k + 1 = o.failureThreshold := by omega
      have hts : ts = [] := by
        have : ts.length = 0 := by omega
        exact List.length_eq_zero.mp this
      subst hts
      have hstate :
          (⟨k + 1, t, if k + 1 ≥ o.failureThreshold then .OPEN else .CLOSED⟩ :
            CBState) = ⟨k + 1, t, .OPEN⟩ := by
        have hge : k + 1 ≥ o.failureThreshold := by omega
        simp [hge]
      rw [runFailingCalls, hstep, hstate, runFailingCalls]
      constructor
      · simp
      · simp [show o.failureThreshold ≤ k + 1 from h1]

theorem classify_status_mem (e : JsError) :
    (classify e).1 = 400 ∨ (classify e).1 = 502 ∨ (classify e).1 = 503 ∨
    (classify e).1 = 504 := by
  rw [classify]
  split_ifs <;> simp

theorem proxyCatch_result (h : Hooks) (evs : List HookEv) (e : JsError)
    (st : CBState) (disp : Bool) (hoe : h.onError.isThrow = false)
    (hacb : h.afterCircuitBreakerExecution.isThrow = false) :
    (proxyCatch h evs e st disp).result = .ok (synthResponse e, true) := by
  obtain ⟨br, bcb, ar, acb, oe⟩ := h
  cases oe <;> cases acb <;> (try simp [HookB.isThrow] at hoe hacb) <;> rfl

theorem proxyFinish_no_throw (h : Hooks) (evsPre : List HookEv)
    (inner : ExecResult) (timedOut : Bool) (cbr : CBExecResult Resp)
    (hoe : h.onError.isThrow = false)
    (hacb : h.afterCircuitBreakerExecution.isThrow = false) :
    ∃ r b, (proxyFinish h evsPre inner timedOut cbr).result = .ok (r, b) ∧
      (b = true →
        r.status = 400 ∨ r.status = 502 ∨ r.status = 503 ∨ r.status = 504) := by
  obtain ⟨res, st2, inv⟩ := cbr
  cases res with
  | error e =>
    exact ⟨synthResponse e, true, proxyCatch_result h _ e st2 _ hoe hacb,
      fun _ => classify_status_mem e⟩
  | ok r =>
    obtain ⟨br, bcb, ar, acb, oe⟩ := h
    cases acb with
    | throws e => simp [HookB.isThrow] at hacb
    | absent => exact ⟨r, false, rfl, fun hb => by cases hb⟩
    | ok => exact ⟨r, false, rfl, fun hb => by cases hb⟩

theorem proxy_returns_response (cfg : ProxyConfig) (st : CBState)
    (env : CallEnv) (hoe : env.hooks.onError.isThrow = false)
    (hacb : env.hooks.afterCircuitBreakerExecution.isThrow = false) :
    ∃ r b, (FetchProxy.proxy cfg st env).result = .ok (r, b) ∧
      (b = true →
        r.status = 400 ∨ r.status = 502 ∨ r.status = 503 ∨ r.status = 504) := by
  obtain ⟨⟨br, bcb, ar, acb, oe⟩, prep, fo, tf, now⟩ := env
  cases br with
  | throws e =>
    exact ⟨synthResponse e, true, proxyCatch_result _ _ e st false hoe hacb,
      fun _ => classify_status_mem e⟩
  | absent =>
    cases bcb with
    | throws e =>
      exact ⟨synthResponse e, true, proxyCatch_result _ _ e st false hoe hacb,
        fun _ => classify_status_mem e⟩
    | absent => exact proxyFinish_no_throw _ _ _ _ _ hoe hacb
    | ok => exact proxyFinish_no_throw _ _ _ _ _ hoe hacb
  | ok =>
    cases bcb with
    | throws e =>
      exact ⟨synthResponse e, true, proxyCatch_result _ _ e st false hoe hacb,
        fun _ => classify_status_mem e⟩
    | absent => exact proxyFinish_no_throw _ _ _ _ _ hoe hacb
    | ok => exact proxyFinish_no_throw _ _ _ _ _ hoe hacb

theorem executeRequest_events (fr : Bool) (h : Hooks)
    (prep : Except JsError Unit) (fo : FetchOutcome) :
    (executeRequest fr h prep fo).events = [] ∨
    (executeRequest fr h prep fo).events = [.afterResponse] := by
  obtain ⟨br, bcb, ar, acb, oe⟩ := h
  cases prep with
  | error e => left; rfl
  | ok u =>
    cases fo with
    | rejected e =>
      rw [executeRequest]
      by_cases hab : e.name = "AbortError" <;> simp [execCatch, hab]
    | resolved r =>
      rw [executeRequest]
      by_cases h3 : (¬ (fr = true)) ∧ 300 ≤ r.status ∧ r.status < 400
      · rw [if_pos h3]; left; rfl
      · rw [if_neg h3]
        cases ar with
        | absent => left; rfl
        | ok => right; rfl
        | throws e => right; rfl

theorem innerOperation_events (fr : Bool) (h : Hooks)
    (prep : Except JsError Unit) (fo : FetchOutcome) :
    (innerOperation fr h prep fo).events = [] ∨
    (innerOperation fr h prep fo).events = [.afterResponse] := by
  have hev : (innerOperation fr h prep fo).events =
      (executeRequest fr h prep fo).events := by
    rw [innerOperation]
    rcases hres : (executeRequest fr h prep fo).result with e | r2
    · rfl
    · dsimp only
      by_cases h5 : r2.status ≥ 500
      · rw [if_pos h5]
      · rw [if_neg h5]
  rw [hev]
  exact executeRequest_events fr h prep fo

/-- Unfolding `proxy` for a call whose five hooks are all present and
non-throwing. -/
theorem proxy_allOk_eq (cfg : ProxyConfig) (st : CBState)
    (prep : Except JsError Unit) (fo : FetchOutcome) (tf : Bool) (now : Nat) :
    FetchProxy.proxy cfg st ⟨allOkHooks, prep, fo, tf, now⟩ =
      proxyFinish allOkHooks
        [HookEv.beforeRequest, HookEv.beforeCircuitBreakerExecution]
        (innerOperation cfg.followRedirects allOkHooks prep fo)
        (cfg.cb.enabled && tf && CallEnv.prepOk ⟨allOkHooks, prep, fo, tf, now⟩)
        (CircuitBreaker.execute cfg.cb st now
          (if (cfg.cb.enabled && tf &&
              CallEnv.prepOk ⟨allOkHooks, prep, fo, tf, now⟩) = true then
            .error circuitTimeoutError
          else (innerOperation cfg.followRedirects allOkHooks prep fo).result)) :=
  rfl

theorem cb_execute_err_not_blocked (o : CircuitBreakerOptions) (st : CBState)
    (now : Nat) (e : JsError)
    (hnb : st.state ≠ .OPEN ∨ now - st.lastFailureTime > o.resetTimeout) :
    ∃ st2, CircuitBreaker.execute o st now (.error e : Except JsError Resp) =
      ⟨.error e, st2, true⟩ := by
  by_cases he : o.enabled = true
  · rw [CircuitBreaker.execute.eq_def, if_neg (by simp [he]),
      if_neg (by rintro ⟨h1, h2⟩; rcases hnb with h | h; exact h h1; exact h2 h)]
    exact ⟨_, rfl⟩
  · rw [CircuitBreaker.execute.eq_def, if_pos he]
    exact ⟨st, rfl⟩

theorem cb_execute_err_shape (o : CircuitBreakerOptions) (st : CBState)
    (now : Nat) (e : JsError) :
    ∃ e2 st2 inv, CircuitBreaker.execute o st now
      (.error e : Except JsError Resp) = ⟨.error e2, st2, inv⟩ := by
  by_cases he : o.enabled = true
  · by_cases hb : st.state = .OPEN ∧ ¬ (now - st.lastFailureTime > o.resetTimeout)
    · rw [CircuitBreaker.execute.eq_def, if_neg (by simp [he]), if_pos hb]
      exact ⟨circuitOpenError, st, false, rfl⟩
    · rw [CircuitBreaker.execute.eq_def, if_neg (by simp [he]), if_neg hb]
      exact ⟨e, _, true, rfl⟩
  · rw [CircuitBreaker.execute.eq_def, if_pos he]
    exact ⟨e, st, true, rfl⟩

theorem cb_execute_blocked (o : CircuitBreakerOptions) (st : CBState)
    (now : Nat) (raced : Except JsError Resp) (he : o.enabled = true)
    (hop : st.state = .OPEN)
    (hle : ¬ (now - st.lastFailureTime > o.resetTimeout)) :
    CircuitBreaker.execute o st now raced =
      ⟨.error circuitOpenError, st, false⟩ := by
  rw [CircuitBreaker.execute.eq_def, if_neg (by simp [he]), if_pos ⟨hop, hle⟩]

theorem cb_execute_ok (o : CircuitBreakerOptions) (st : CBState) (now : Nat)
    (r : Resp)
    (hnb : st.state ≠ .OPEN ∨ now - st.lastFailureTime > o.resetTimeout) :
    ∃ st2, CircuitBreaker.execute o st now (.ok r : Except JsError Resp) =
      ⟨.ok r, st2, true⟩ := by
  by_cases he : o.enabled = true
  · rw [CircuitBreaker.execute.eq_def, if_neg (by simp [he]),
      if_neg (by rintro ⟨h1, h2⟩; rcases hnb with h | h; exact h h1; exact h2 h)]
    exact ⟨_, rfl⟩
  · rw [CircuitBreaker.execute.eq_def, if_pos he]
    exact ⟨st, rfl⟩

theorem finish_ok_exact (evsPre : List HookEv) (inner : ExecResult)
    (timedOut : Bool) (r : Resp) (raced : Except JsError Resp)
    (o : CircuitBreakerOptions) (st : CBState) (now : Nat)
    (hrac : raced = .ok r)
    (hnb : st.state ≠ .OPEN ∨ now - st.lastFailureTime > o.resetTimeout) :
    (proxyFinish allOkHooks evsPre inner timedOut
        (CircuitBreaker.execute o st now raced)).result = .ok (r, false) ∧
    (proxyFinish allOkHooks evsPre inner timedOut
        (CircuitBreaker.execute o st now raced)).events =
      (evsPre ++ (if timedOut = true then [] else inner.events)) ++
        [.afterCircuitBreakerExecution] := by
  subst hrac
  obtain ⟨st2, hexec⟩ := cb_execute_ok o st now r hnb
  rw [hexec]
  exact ⟨rfl, rfl⟩

theorem finish_err_exact (evsPre : List HookEv) (inner : ExecResult)
    (timedOut : Bool) (e : JsError) (raced : Except JsError Resp)
    (o : CircuitBreakerOptions) (st : CBState) (now : Nat)
    (hrac : raced = .error e)
    (hnb : st.state ≠ .OPEN ∨ now - st.lastFailureTime > o.resetTimeout) :
    (proxyFinish allOkHooks evsPre inner timedOut
        (CircuitBreaker.execute o st now raced)).result =
      .ok (synthResponse e, true) ∧
    (proxyFinish allOkHooks evsPre inner timedOut
        (CircuitBreaker.execute o st now raced)).events =
      ((evsPre ++ (if timedOut = true then [] else inner.events)) ++
        [.onError]) ++ [.afterCircuitBreakerExecution] := by
  subst hrac
  obtain ⟨st2, hexec⟩ := cb_execute_err_not_blocked o st now e hnb
  rw [hexec]
  exact ⟨rfl, rfl⟩

theorem finish_err_any_events (evsPre : List HookEv) (inner : ExecResult)
    (timedOut : Bool) (raced : Except JsError Resp)
    (o : CircuitBreakerOptions) (st : CBState) (now : Nat)
    (hie : inner.events = []) (hrac : ∃ e, raced = .error e) :
    (proxyFinish allOkHooks evsPre inner timedOut
        (CircuitBreaker.execute o st now raced)).events =
      (evsPre ++ [.onError]) ++ [.afterCircuitBreakerExecution] := by
  obtain ⟨e, rfl⟩ := hrac
  obtain ⟨e2, st2, inv, hexec⟩ := cb_execute_err_shape o st now e
  rw [hexec]
  cases inv <;> cases timedOut <;>
    simp [proxyFinish, proxyCatch, allOkHooks, HookB.isPresent, hie]

theorem proxyCatch_count (h : Hooks) (evs : List HookEv) (e : JsError)
    (st : CBState) (disp : Bool) (hoe : h.onError.isThrow = false)
    (hacb : h.afterCircuitBreakerExecution = .ok)
    (hevs : evs.count .afterCircuitBreakerExecution = 0) :
    ((proxyCatch h evs e st disp).events).count .afterCircuitBreakerExecution
      = 1 := by
  obtain ⟨br, bcb, ar, acb, oe⟩ := h
  simp only at hacb
  subst hacb
  cases oe with
  | throws e2 => simp [HookB.isThrow] at hoe
  | absent => simp [proxyCatch, HookB.isPresent, List.count_append, hevs]
  | ok => simp [proxyCatch, HookB.isPresent, List.count_append, hevs]

theorem proxyFinish_count_one (h : Hooks) (evsPre : List HookEv)
    (inner : ExecResult) (timedOut : Bool) (cbr : CBExecResult Resp)
    (hoe : h.onError.isThrow = false)
    (hacb : h.afterCircuitBreakerExecution = .ok)
    (hpre : evsPre.count .afterCircuitBreakerExecution = 0)
    (hinner : inner.events.count .afterCircuitBreakerExecution = 0) :
    ((proxyFinish h evsPre inner timedOut cbr).events).count
      .afterCircuitBreakerExecution = 1 := by
  obtain ⟨res, st2, inv⟩ := cbr
  have hIE : ((if inv then (if timedOut = true then ([] : List HookEv)
      else inner.events) else [])).count .afterCircuitBreakerExecution = 0 := by
    cases inv
    · rfl
    · cases timedOut
      · simpa using hinner
      · rfl
  cases res with
  | ok r =>
    obtain ⟨br, bcb, ar, acb, oe⟩ := h
    simp only at hacb
    subst hacb
    simp [proxyFinish, List.count_append, hpre, hIE]
  | error e =>
    have := proxyCatch_count h (evsPre ++
      (if inv then (if timedOut = true then ([] : List HookEv)
        else inner.events) else [])) e st2
      (inv && (if timedOut = true then true else inner.dispatched)) hoe hacb
      (by simp [List.count_append, hpre, hIE])
    simpa [proxyFinish] using this

theorem proxy_main_eq (cfg : ProxyConfig) (st : CBState) (hk : Hooks)
    (prep : Except JsError Unit) (fo : FetchOutcome) (tf : Bool) (now : Nat)
    (hbr : hk.beforeRequest.isThrow = false)
    (hbcb : hk.beforeCircuitBreakerExecution.isThrow = false) :
    FetchProxy.proxy cfg st ⟨hk, prep, fo, tf, now⟩ =
      proxyFinish hk
        ((if hk.beforeRequest.isPresent then [HookEv.beforeRequest] else []) ++
          (if hk.beforeCircuitBreakerExecution.isPresent then
            [HookEv.beforeCircuitBreakerExecution] else []))
        (innerOperation cfg.followRedirects hk prep fo)
        (cfg.cb.enabled && tf && (CallEnv.prepOk ⟨hk, prep, fo, tf, now⟩))
        (CircuitBreaker.execute cfg.cb st now
          (if (cfg.cb.enabled && tf &&
              (CallEnv.prepOk ⟨hk, prep, fo, tf, now⟩)) = true then
            .error circuitTimeoutError
          else (innerOperation cfg.followRedirects hk prep fo).result)) := by
  obtain ⟨br, bcb, ar, acb, oe⟩ := hk
  cases br <;> cases bcb <;> (try simp [HookB.isThrow] at hbr hbcb) <;> rfl

theorem proxyFinish_redirect_ok (h : Hooks) (evsPre : List HookEv)
    (hacb : h.afterCircuitBreakerExecution.isThrow = false)
    (hpre : HookEv.afterResponse ∉ evsPre) (r : Resp) (st2 : CBState) :
    (proxyFinish h evsPre ⟨.ok r, [], true⟩ false ⟨.ok r, st2, true⟩).result =
      .ok (r, false) ∧
    HookEv.afterResponse ∉
      (proxyFinish h evsPre ⟨.ok r, [], true⟩ false ⟨.ok r, st2, true⟩).events := by
  obtain ⟨br, bcb, ar, acb, oe⟩ := h
  cases acb with
  | throws e => simp [HookB.isThrow] at hacb
  | absent =>
    refine ⟨rfl, ?_⟩
    simpa [proxyFinish] using hpre
  | ok =>
    refine ⟨rfl, ?_⟩
    simp [proxyFinish, List.mem_append, hpre]

/-! ## Claim theorems -/

/-- C1 counterexample: a call whose `onError` hook throws makes `proxy`
itself raise that error to its caller, so `proxy` does not hold the
never-throws contract for options whose hooks throw. -/
theorem c1_proxy_no_throw_counterexample :
    (FetchProxy.proxy ⟨false, ⟨5, 60000, 5000, true⟩⟩ initialCBState
      ⟨⟨.absent, .absent, .absent, .absent, .throws ⟨"Error", "boom"⟩⟩,
        .ok (), .rejected ⟨"Error", "ECONNREFUSED"⟩, false, 0⟩).result =
      .error ⟨"Error", "boom"⟩ := by decide

/-- C1 amended: provided the `onError` and `afterCircuitBreakerExecution`
hooks do not themselves throw, `proxy` never raises an exception to its
caller, and every response synthesized on a failure path carries one of
the internally produced statuses 400, 502, 503 or 504. -/
theorem c1_proxy_statuses_amended (cfg : ProxyConfig) (st : CBState)
    (env : CallEnv) (hoe : env.hooks.onError.isThrow = false)
    (hacb : env.hooks.afterCircuitBreakerExecution.isThrow = false) :
    (FetchProxy.proxy cfg st env).threw = false ∧
    internalStatusOk (FetchProxy.proxy cfg st env) = true := by
  obtain ⟨r, b, hres, hmem⟩ := proxy_returns_response cfg st env hoe hacb
  constructor
  · simp [ProxyOutcome.threw, hres]
  · cases b with
    | false => simp [internalStatusOk, hres]
    | true =>
      rcases hmem rfl with h | h | h | h <;> simp [internalStatusOk, hres, h]

theorem c1_proxy_statuses_amended_witness :
    (FetchProxy.proxy ⟨false, ⟨5, 60000, 5000, true⟩⟩ initialCBState
      ⟨noHooks, .ok (), .rejected ⟨"Error", "ECONNREFUSED"⟩, false, 0⟩).threw
      = false ∧
    internalStatusOk (FetchProxy.proxy ⟨false, ⟨5, 60000, 5000, true⟩⟩
      initialCBState
      ⟨noHooks, .ok (), .rejected ⟨"Error", "ECONNREFUSED"⟩, false, 0⟩)
      = true :=
  c1_proxy_statuses_amended ⟨false, ⟨5, 60000, 5000, true⟩⟩ initialCBState
    ⟨noHooks, .ok (), .rejected ⟨"Error", "ECONNREFUSED"⟩, false, 0⟩ rfl rfl

/-- C2 counterexample: with all five hooks supplied, a failing call runs
the hooks in the order beforeRequest, beforeCircuitBreakerExecution,
onError, afterCircuitBreakerExecution — not the claimed order with
onError last. -/
theorem c2_hook_order_counterexample :
    (FetchProxy.proxy ⟨false, ⟨5, 60000, 5000, true⟩⟩ initialCBState
      ⟨allOkHooks, .ok (), .rejected ⟨"Error", "ECONNREFUSED"⟩, false,
        0⟩).events =
      [.beforeRequest, .beforeCircuitBreakerExecution, .onError,
        .afterCircuitBreakerExecution] ∧
    (FetchProxy.proxy ⟨false, ⟨5, 60000, 5000, true⟩⟩ initialCBState
      ⟨allOkHooks, .ok (), .rejected ⟨"Error", "ECONNREFUSED"⟩, false,
        0⟩).events ≠
      [.beforeRequest, .beforeCircuitBreakerExecution,
        .afterCircuitBreakerExecution, .onError] ∧
    (FetchProxy.proxy ⟨false, ⟨5, 60000, 5000, true⟩⟩ initialCBState
      ⟨allOkHooks, .ok (), .rejected ⟨"Error", "ECONNREFUSED"⟩, false,
        0⟩).result = .ok (⟨502, "", "Bad Gateway"⟩, true) := by decide

/-- C2 amended: with all hooks supplied (and none throwing), the hook
order is fully determined by the outcome of the outbound call. An
ordinary success (response arrived, not a 3xx-with-redirects-disabled,
status below 500) runs beforeRequest, beforeCircuitBreakerExecution,
afterResponse, afterCircuitBreakerExecution; a 3xx response with
redirects disabled is passed through successfully with afterResponse
omitted; a response with status at least 500 runs afterResponse, is
converted into a synthetic failure, and continues with onError then
afterCircuitBreakerExecution; every other failure — validation error,
network error, breaker-open refusal, breaker race timeout — runs
beforeRequest, beforeCircuitBreakerExecution, onError,
afterCircuitBreakerExecution with afterResponse never invoked.  In
particular, on every failing call onError precedes
afterCircuitBreakerExecution, not the reverse. -/
theorem c2_hook_order_amended (cfg : ProxyConfig) (st : CBState)
    (env : CallEnv) (hall : env.hooks = allOkHooks) :
    (∀ r : Resp, env.prep = .ok () → env.fetch = .resolved r →
      env.timerFirst = false →
      (cfg.followRedirects = true ∨ r.status < 300 ∨ 400 ≤ r.status) →
      r.status < 500 →
      (st.state ≠ .OPEN ∨
        env.now - st.lastFailureTime > cfg.cb.resetTimeout) →
      (FetchProxy.proxy cfg st env).result = .ok (r, false) ∧
      (FetchProxy.proxy cfg st env).events =
        [.beforeRequest, .beforeCircuitBreakerExecution, .afterResponse,
          .afterCircuitBreakerExecution]) ∧
    (∀ r : Resp, env.prep = .ok () → env.fetch = .resolved r →
      env.timerFirst = false → cfg.followRedirects = false →
      300 ≤ r.status → r.status < 400 →
      (st.state ≠ .OPEN ∨
        env.now - st.lastFailureTime > cfg.cb.resetTimeout) →
      (FetchProxy.proxy cfg st env).result = .ok (r, false) ∧
      (FetchProxy.proxy cfg st env).events =
        [.beforeRequest, .beforeCircuitBreakerExecution,
          .afterCircuitBreakerExecution]) ∧
    (∀ r : Resp, env.prep = .ok () → env.fetch = .resolved r →
      env.timerFirst = false → 500 ≤ r.status →
      (st.state ≠ .OPEN ∨
        env.now - st.lastFailureTime > cfg.cb.resetTimeout) →
      (FetchProxy.proxy cfg st env).result =
        .ok (synthResponse ⟨"Error", "Server error: " ++ toString r.status ++
          " " ++ r.statusText⟩, true) ∧
      (FetchProxy.proxy cfg st env).events =
        [.beforeRequest, .beforeCircuitBreakerExecution, .afterResponse,
          .onError, .afterCircuitBreakerExecution]) ∧
    (∀ e : JsError, env.prep = .error e →
      (FetchProxy.proxy cfg st env).events =
        [.beforeRequest, .beforeCircuitBreakerExecution, .onError,
          .afterCircuitBreakerExecution]) ∧
    (∀ e : JsError, env.prep = .ok () → env.fetch = .rejected e →
      (FetchProxy.proxy cfg st env).events =
        [.beforeRequest, .beforeCircuitBreakerExecution, .onError,
          .afterCircuitBreakerExecution]) ∧
    (cfg.cb.enabled = true → st.state = .OPEN →
      ¬ (env.now - st.lastFailureTime > cfg.cb.resetTimeout) →
      (FetchProxy.proxy cfg st env).result =
        .ok (synthResponse circuitOpenError, true) ∧
      (FetchProxy.proxy cfg st env).events =
        [.beforeRequest, .beforeCircuitBreakerExecution, .onError,
          .afterCircuitBreakerExecution]) ∧
    (cfg.cb.enabled = true → env.timerFirst = true → env.prep = .ok () →
      (st.state ≠ .OPEN ∨
        env.now - st.lastFailureTime > cfg.cb.resetTimeout) →
      (FetchProxy.proxy cfg st env).result =
        .ok (synthResponse circuitTimeoutError, true) ∧
      (FetchProxy.proxy cfg st env).events =
        [.beforeRequest, .beforeCircuitBreakerExecution, .onError,
          .afterCircuitBreakerExecution]) := by
  obtain ⟨hk, prep, fo, tf, now⟩ := env
  simp only at hall
  subst hall
  refine ⟨?_, ?_, ?_, ?_, ?_, ?_, ?_⟩
  · -- ordinary success: afterResponse runs
    intro r hprep hfo htf hn3 h5 hnb
    simp only at hprep hfo htf hnb
    subst hprep; subst hfo; subst htf
    have hguard : ¬ ((¬ (cfg.followRedirects = true)) ∧ 300 ≤ r.status ∧
        r.status < 400) := by
      rintro ⟨hf, h3a, h3b⟩
      rcases hn3 with h | h | h
      · exact hf h
      · omega
      · omega
    have hinner : innerOperation cfg.followRedirects allOkHooks (Except.ok ())
        (.resolved r) = ⟨.ok r, [.afterResponse], true⟩ := by
      rw [innerOperation, executeRequest, if_neg hguard]
      dsimp only [allOkHooks]
      rw [if_neg (by omega)]
    rw [proxy_allOk_eq, hinner]
    simp only [Bool.and_false, Bool.false_and]
    exact finish_ok_exact _ _ _ r _ cfg.cb st now rfl hnb
  · -- 3xx pass-through: success without afterResponse
    intro r hprep hfo htf hfr h3 h4 hnb
    simp only at hprep hfo htf hnb
    subst hprep; subst hfo; subst htf
    have hinner : innerOperation cfg.followRedirects allOkHooks (Except.ok ())
        (.resolved r) = ⟨.ok r, [], true⟩ := by
      rw [innerOperation, executeRequest,
        if_pos (show (¬ (cfg.followRedirects = true)) ∧ 300 ≤ r.status ∧
          r.status < 400 from ⟨by simp [hfr], h3, h4⟩)]
      try dsimp only
      rw [if_neg (by omega)]
    rw [proxy_allOk_eq, hinner]
    simp only [Bool.and_false, Bool.false_and]
    exact finish_ok_exact _ _ _ r _ cfg.cb st now rfl hnb
  · -- 5xx-as-failure: afterResponse, then onError, then afterCB
    intro r hprep hfo htf h5 hnb
    simp only at hprep hfo htf hnb
    subst hprep; subst hfo; subst htf
    have hguard : ¬ ((¬ (cfg.followRedirects = true)) ∧ 300 ≤ r.status ∧
        r.status < 400) := by
      rintro ⟨-, -, h3b⟩
      omega
    have hinner : innerOperation cfg.followRedirects allOkHooks (Except.ok ())
        (.resolved r) =
        ⟨.error ⟨"Error", "Server error: " ++ toString r.status ++ " " ++
          r.statusText⟩, [.afterResponse], true⟩ := by
      rw [innerOperation, executeRequest, if_neg hguard]
      dsimp only [allOkHooks]
      rw [if_pos (by omega)]
    rw [proxy_allOk_eq, hinner]
    simp only [Bool.and_false, Bool.false_and]
    exact finish_err_exact _ _ _ _ _ cfg.cb st now rfl hnb
  · -- validation/preparation failure: no afterResponse
    intro e hprep
    simp only at hprep
    subst hprep
    rw [proxy_allOk_eq]
    refine finish_err_any_events _ _ _ _ cfg.cb st now rfl ?_
    by_cases hb : (cfg.cb.enabled && tf &&
        CallEnv.prepOk ⟨allOkHooks, Except.error e, fo, tf, now⟩) = true
    · exact ⟨circuitTimeoutError, by rw [if_pos hb]⟩
    · exact ⟨execCatch e, by rw [if_neg hb]; rfl⟩
  · -- network failure: no afterResponse
    intro e hprep hfo
    simp only at hprep hfo
    subst hprep; subst hfo
    rw [proxy_allOk_eq]
    refine finish_err_any_events _ _ _ _ cfg.cb st now rfl ?_
    by_cases hb : (cfg.cb.enabled && tf &&
        CallEnv.prepOk ⟨allOkHooks, Except.ok (), .rejected e, tf, now⟩) = true
    · exact ⟨circuitTimeoutError, by rw [if_pos hb]⟩
    · exact ⟨execCatch e, by rw [if_neg hb]; rfl⟩
  · -- breaker open: refused without dispatch, no afterResponse
    intro he hop hle
    simp only at hle
    rw [proxy_allOk_eq, cb_execute_blocked cfg.cb st now _ he hop hle]
    exact ⟨rfl, rfl⟩
  · -- breaker race timeout: no afterResponse
    intro he htf hprep hnb
    simp only at htf hprep hnb
    subst htf; subst hprep
    rw [proxy_allOk_eq]
    rw [show (cfg.cb.enabled && true &&
        CallEnv.prepOk ⟨allOkHooks, Except.ok (), fo, true, now⟩) = true from
      by simp [he, CallEnv.prepOk]]
    exact finish_err_exact _ _ _ circuitTimeoutError _ cfg.cb st now rfl hnb

theorem c2_hook_order_amended_witness :
    (FetchProxy.proxy ⟨false, ⟨5, 60000, 5000, true⟩⟩ initialCBState
      ⟨allOkHooks, .ok (), .resolved ⟨200, "OK", ""⟩, false, 0⟩).result =
      .ok (⟨200, "OK", ""⟩, false) ∧
    (FetchProxy.proxy ⟨false, ⟨5, 60000, 5000, true⟩⟩ initialCBState
      ⟨allOkHooks, .ok (), .resolved ⟨200, "OK", ""⟩, false, 0⟩).events =
      [.beforeRequest, .beforeCircuitBreakerExecution, .afterResponse,
        .afterCircuitBreakerExecution] :=
  (c2_hook_order_amended ⟨false, ⟨5, 60000, 5000, true⟩⟩ initialCBState
    ⟨allOkHooks, .ok (), .resolved ⟨200, "OK", ""⟩, false, 0⟩ rfl).1
    ⟨200, "OK", ""⟩ rfl rfl rfl (Or.inr (Or.inl (by decide))) (by decide)
    (Or.inl (by decide))

/-- C3 counterexample: a failing call that supplies
`afterCircuitBreakerExecution` but whose `onError` hook throws never
invokes `afterCircuitBreakerExecution` (and the error escapes `proxy`),
so the hook is not invoked exactly once on every call. -/
theorem c3_after_cb_once_counterexample :
    ((FetchProxy.proxy ⟨false, ⟨5, 60000, 5000, true⟩⟩ initialCBState
      ⟨⟨.absent, .absent, .absent, .ok, .throws ⟨"Error", "boom"⟩⟩,
        .ok (), .rejected ⟨"Error", "ECONNREFUSED"⟩, false, 0⟩).events).count
      .afterCircuitBreakerExecution = 0 ∧
    (FetchProxy.proxy ⟨false, ⟨5, 60000, 5000, true⟩⟩ initialCBState
      ⟨⟨.absent, .absent, .absent, .ok, .throws ⟨"Error", "boom"⟩⟩,
        .ok (), .rejected ⟨"Error", "ECONNREFUSED"⟩, false, 0⟩).result =
      .error ⟨"Error", "boom"⟩ := by decide

/-- C3 amended: if `afterCircuitBreakerExecution` is supplied and does not
itself throw, and `onError` does not throw, then
`afterCircuitBreakerExecution` is invoked exactly once per call — in
particular also when beforeRequest, beforeCircuitBreakerExecution or
afterResponse threw. -/
theorem c3_after_cb_once_amended (cfg : ProxyConfig) (st : CBState)
    (env : CallEnv)
    (hacb : env.hooks.afterCircuitBreakerExecution = .ok)
    (hoe : env.hooks.onError.isThrow = false) :
    ((FetchProxy.proxy cfg st env).events).count .afterCircuitBreakerExecution
      = 1 := by
  obtain ⟨⟨br, bcb, ar, acb, oe⟩, prep, fo, tf, now⟩ := env
  simp only at hacb hoe
  subst hacb
  have hinner := innerOperation_events cfg.followRedirects
    ⟨br, bcb, ar, .ok, oe⟩ prep fo
  have hinnerc : ((innerOperation cfg.followRedirects
      ⟨br, bcb, ar, .ok, oe⟩ prep fo).events).count
      .afterCircuitBreakerExecution = 0 := by
    rcases hinner with hh | hh <;> rw [hh] <;> rfl
  cases br with
  | throws e =>
    exact proxyCatch_count _ _ e st false hoe rfl (by rfl)
  | absent =>
    cases bcb with
    | throws e => exact proxyCatch_count _ _ e st false hoe rfl (by rfl)
    | absent => exact proxyFinish_count_one _ _ _ _ _ hoe rfl (by rfl) hinnerc
    | ok => exact proxyFinish_count_one _ _ _ _ _ hoe rfl (by rfl) hinnerc
  | ok =>
    cases bcb with
    | throws e => exact proxyCatch_count _ _ e st false hoe rfl (by rfl)
    | absent => exact proxyFinish_count_one _ _ _ _ _ hoe rfl (by rfl) hinnerc
    | ok => exact proxyFinish_count_one _ _ _ _ _ hoe rfl (by rfl) hinnerc

theorem c3_after_cb_once_amended_witness :
    ((FetchProxy.proxy ⟨false, ⟨5, 60000, 5000, true⟩⟩ initialCBState
      ⟨⟨.throws ⟨"Error", "hook boom"⟩, .absent, .absent, .ok, .absent⟩,
        .ok (), .resolved ⟨200, "OK", ""⟩, false, 0⟩).events).count
      .afterCircuitBreakerExecution = 1 :=
  c3_after_cb_once_amended ⟨false, ⟨5, 60000, 5000, true⟩⟩ initialCBState
    ⟨⟨.throws ⟨"Error", "hook boom"⟩, .absent, .absent, .ok, .absent⟩,
      .ok (), .resolved ⟨200, "OK", ""⟩, false, 0⟩ rfl rfl

/-- C4: for an enabled breaker starting CLOSED with zero failures, exactly
`failureThreshold` consecutive failing executions open the circuit; an
`execute` while OPEN before `resetTimeout` has elapsed fails with the
circuit-open error without invoking the operation; once more than
`resetTimeout` has elapsed `getState` reads HALF_OPEN; and the next
successful execution then resets the counter to 0 and the state to
CLOSED. -/
theorem c4_circuit_breaker_lifecycle (o : CircuitBreakerOptions)
    (ho : o.enabled = true) (hthr : 1 ≤ o.failureThreshold) :
    (∀ (e : JsError) (ts : List Nat), ts.length = o.failureThreshold →
      (runFailingCalls o e initialCBState ts).state = .OPEN ∧
      (runFailingCalls o e initialCBState ts).failures = o.failureThreshold) ∧
    (∀ (st : CBState) (now : Nat) (raced : Except JsError Unit),
      st.state = .OPEN → now - st.lastFailureTime < o.resetTimeout →
      CircuitBreaker.execute o st now raced =
        ⟨.error circuitOpenError, st, false⟩) ∧
    (∀ (st : CBState) (now : Nat), st.state = .OPEN →
      now - st.lastFailureTime > o.resetTimeout →
      (getState o st now).1 = .HALF_OPEN) ∧
    (∀ (st : CBState) (now now2 : Nat), st.state = .OPEN →
      now - st.lastFailureTime > o.resetTimeout →
      (CircuitBreaker.execute o ((getState o st now).2) now2
          (Except.ok () : Except JsError Unit)).result = .ok () ∧
      (CircuitBreaker.execute o ((getState o st now).2) now2
          (Except.ok () : Except JsError Unit)).state =
        ⟨0, st.lastFailureTime, .CLOSED⟩) := by
  refine ⟨?_, ?_, ?_, ?_⟩
  · intro e ts hts
    have := runFail_closed o e ho ts 0 0 (by omega) (by omega)
    rw [initialCBState]
    constructor
    · rw [this.2, if_pos (by omega)]
    · rw [this.1]; omega
  · intro st now raced hst hlt
    rw [CircuitBreaker.execute.eq_def, if_neg (by simp [ho]),
      if_pos ⟨hst, by omega⟩]
  · intro st now hst hgt
    rw [getState, if_pos ⟨hst, hgt⟩]
  · intro st now now2 hst hgt
    obtain ⟨f, l, s⟩ := st
    simp only at hst
    subst hst
    rw [getState, if_pos ⟨rfl, hgt⟩]
    constructor
    · simp [CircuitBreaker.execute, ho]
    · simp [CircuitBreaker.execute, resetCB, ho]

theorem c4_circuit_breaker_lifecycle_witness :
    (runFailingCalls ⟨2, 100, 5000, true⟩ ⟨"Error", "fail"⟩ initialCBState
      [3, 7]).state = .OPEN :=
  ((c4_circuit_breaker_lifecycle ⟨2, 100, 5000, true⟩ rfl (by decide)).1
    ⟨"Error", "fail"⟩ [3, 7] rfl).1

/-- C5: with `failureThreshold = 2`, three consecutive no-hook `proxy`
calls against a target that always answers 500, the third within the
reset window of the second failure, return 502, 502 and 503; the first
two dispatch the outbound call, the third is refused by the open breaker
without dispatching. -/
theorem c5_three_calls_statuses (resetT cbt t1 t2 t3 : Nat)
    (h : t3 - t2 ≤ resetT) :
    (FetchProxy.proxy (threshold2Config resetT cbt) initialCBState
        (call500Env t1)).result = .ok (⟨502, "", "Bad Gateway"⟩, true) ∧
    (FetchProxy.proxy (threshold2Config resetT cbt) initialCBState
        (call500Env t1)).dispatched = true ∧
    (FetchProxy.proxy (threshold2Config resetT cbt)
        (FetchProxy.proxy (threshold2Config resetT cbt) initialCBState
          (call500Env t1)).breaker
        (call500Env t2)).result = .ok (⟨502, "", "Bad Gateway"⟩, true) ∧
    (FetchProxy.proxy (threshold2Config resetT cbt)
        (FetchProxy.proxy (threshold2Config resetT cbt) initialCBState
          (call500Env t1)).breaker
        (call500Env t2)).dispatched = true ∧
    (FetchProxy.proxy (threshold2Config resetT cbt)
        (FetchProxy.proxy (threshold2Config resetT cbt)
          (FetchProxy.proxy (threshold2Config resetT cbt) initialCBState
            (call500Env t1)).breaker
          (call500Env t2)).breaker
        (call500Env t3)).result =
      .ok (⟨503, "", "Service Unavailable"⟩, true) ∧
    (FetchProxy.proxy (threshold2Config resetT cbt)
        (FetchProxy.proxy (threshold2Config resetT cbt)
          (FetchProxy.proxy (threshold2Config resetT cbt) initialCBState
            (call500Env t1)).breaker
          (call500Env t2)).breaker
        (call500Env t3)).dispatched = false := by
  have h1 : FetchProxy.proxy (threshold2Config resetT cbt) initialCBState
      (call500Env t1) =
      ⟨.ok (⟨502, "", "Bad Gateway"⟩, true), [], ⟨1, t1, .CLOSED⟩, true⟩ := rfl
  have h2 : FetchProxy.proxy (threshold2Config resetT cbt) ⟨1, t1, .CLOSED⟩
      (call500Env t2) =
      ⟨.ok (⟨502, "", "Bad Gateway"⟩, true), [], ⟨2, t2, .OPEN⟩, true⟩ := rfl
  have hraced :
      CircuitBreaker.execute (threshold2Config resetT cbt).cb ⟨2, t2, .OPEN⟩ t3
        (innerOperation (threshold2Config resetT cbt).followRedirects
          (call500Env t3).hooks (call500Env t3).prep
          (call500Env t3).fetch).result =
      ⟨.error circuitOpenError, ⟨2, t2, .OPEN⟩, false⟩ := by
    rw [CircuitBreaker.execute.eq_def]
    rw [if_neg (by simp [threshold2Config])]
    rw [if_pos ⟨rfl, by simp only [threshold2Config]; omega⟩]
  have hsplit : FetchProxy.proxy (threshold2Config resetT cbt) ⟨2, t2, .OPEN⟩
      (call500Env t3) =
      proxyFinish noHooks []
        (innerOperation (threshold2Config resetT cbt).followRedirects
          (call500Env t3).hooks (call500Env t3).prep (call500Env t3).fetch)
        false
        (CircuitBreaker.execute (threshold2Config resetT cbt).cb
          ⟨2, t2, .OPEN⟩ t3
          (innerOperation (threshold2Config resetT cbt).followRedirects
            (call500Env t3).hooks (call500Env t3).prep
            (call500Env t3).fetch).result) := rfl
  have h3 : FetchProxy.proxy (threshold2Config resetT cbt) ⟨2, t2, .OPEN⟩
      (call500Env t3) =
      ⟨.ok (⟨503, "", "Service Unavailable"⟩, true), [], ⟨2, t2, .OPEN⟩,
        false⟩ := by
    rw [hsplit, hraced]
    rfl
  rw [h1, h2, h3]
  exact ⟨rfl, rfl, rfl, rfl, rfl, rfl⟩

theorem c5_three_calls_statuses_witness :
    (FetchProxy.proxy (threshold2Config 60000 5000) initialCBState
        (call500Env 0)).result = .ok (⟨502, "", "Bad Gateway"⟩, true) :=
  (c5_three_calls_statuses 60000 5000 0 10 20 (by decide)).1

/-- C6 counterexample: `"get "` contains whitespace (and `"GET\n"` ends
with a line feed) yet both are accepted, because the source trims and
case-normalizes before running the forbidden-character and whitespace
checks; the claim that any method containing whitespace or CR/LF fails is
therefore false. -/
theorem c6_validate_method_counterexample :
    validateHttpMethod "get " = Except.ok () ∧
    jsHasWhitespace "get " = true ∧
    validateHttpMethod "GET\n" = Except.ok () := by decide

/-- C6 amended: `validateHttpMethod` accepts exactly the non-empty strings
whose upper-cased, trimmed form is in the allow-set — so leading or
trailing whitespace (including CR/LF) is stripped before the checks,
while interior forbidden characters or whitespace still fail; `"get"` is
accepted case-insensitively and `"CONNECT"` is rejected with a message
naming it. -/
theorem c6_validate_method_amended :
    (∀ m : String, validateHttpMethod m = Except.ok () ↔
      (m ≠ "" ∧
        ALLOWED_HTTP_METHODS.contains (jsTrim (jsToUpper m)) = true)) ∧
    validateHttpMethod "get" = Except.ok () ∧
    validateHttpMethod "CONNECT" = Except.error
      "HTTP method CONNECT is not allowed. Only GET, POST, PUT, PATCH, DELETE, HEAD, OPTIONS methods are permitted." := by
  refine ⟨?_, by decide, by decide⟩
  intro m
  by_cases hm : m = ""
  · simp [validateHttpMethod, hm]
  · simp only [validateHttpMethod, if_neg hm]
    split_ifs with h1 h2 h3
    · constructor
      · intro h; cases h
      · rintro ⟨-, hc⟩
        exact absurd (allowed_clean _ hc).1 (by simp [h1])
    · constructor
      · intro h; cases h
      · rintro ⟨-, hc⟩
        exact absurd (allowed_clean _ hc).2 (by simp [h2])
    · have hmem : jsTrim (jsToUpper m) ∈ ALLOWED_HTTP_METHODS := by
        simpa using h3
      simp [hm, hmem]
    · constructor
      · intro h; cases h
      · rintro ⟨-, hc⟩
        exact absurd hc h3

/-- C7: with a non-empty base, a source starting with exactly two slashes
is rejected as a protocol-override attempt; a source starting with three
or more slashes is never rejected that way — when it has no embedded
`://` its leading slash run is collapsed to one and resolution proceeds —
and concretely `///x` against `https://trusted.com` resolves to
`https://trusted.com/x` while `//evil.com/x` fails. -/
theorem c7_buildURL_slash_rules :
    (∀ s b : String, b ≠ "" → jsStartsWith s "//" = true →
      jsStartsWith s "///" = false →
      buildURL s b =
        Except.error "Protocol override not allowed in relative URLs") ∧
    (∀ s b : String, b ≠ "" → jsStartsWith s "///" = true →
      (jsIncludes s "://" = false →
        buildURL s b = buildURLResolvePhase (collapseLeadingSlashes s) b)) ∧
    buildURL "///x" "https://trusted.com" =
      Except.ok ⟨"https:", "trusted.com", "/x"⟩ ∧
    buildURL "//evil.com/x" "https://trusted.com" =
      Except.error "Protocol override not allowed in relative URLs" := by
  refine ⟨?_, ?_, by decide, by decide⟩
  · intro s b hb h2 h3
    rw [buildURL, if_pos ⟨hb, h2, by simp [h3]⟩]
  · intro s b hb h3 hinc
    have h1 : jsStartsWith s "/" = true := (threeSlash_two (l := s.toList) h3).2
    rw [buildURL, if_neg (by rintro ⟨-, -, hc⟩; exact hc h3)]
    rw [if_pos (show (¬ jsIncludes s "://" = true) ∧ jsStartsWith s "/" = true
      from And.intro (by simp [hinc]) h1)]

theorem c7_buildURL_slash_rules_witness :
    buildURL "//e.com/a" "https://base.org" =
      Except.error "Protocol override not allowed in relative URLs" :=
  c7_buildURL_slash_rules.1 "//e.com/a" "https://base.org" (by decide)
    (by decide) (by decide)

/-- C8 counterexample: a path containing a null byte fails with the
null-byte error, not the traversal error, even though its reassembled
form does not start with the prefix — so "fails with a traversal error
iff the reassembled path does not start with the prefix" does not hold
for every non-empty input. -/
theorem c8_normalize_path_counterexample :
    normalizeSecurePath "x\x00" "/files/" =
      Except.error "Path contains null bytes" ∧
    jsStartsWith (normalizePathOnly "x\x00") "/files/" = false ∧
    "Path contains null bytes" ≠
      "Path traversal attempt detected. Path must start with: /files/" := by
  decide

/-- C8 amended: for non-blank inputs free of null bytes, the function
splits on `/`, drops empty and `.` segments, pops one retained segment
per `..` (popping past the root is silently dropped), rejoins with a
leading slash, and fails with the traversal error exactly when the
reassembled path does not start with the prefix; the two concrete
examples behave as the claim states. -/
theorem c8_normalize_path_amended :
    (∀ p pfx : String, p ≠ "" → pfx ≠ "" → jsTrim p ≠ "" → jsTrim pfx ≠ "" →
      jsIncludes p "\x00" = false →
      ((normalizeSecurePath p pfx = Except.error
          ("Path traversal attempt detected. Path must start with: " ++ pfx) ↔
        jsStartsWith (normalizePathOnly p) pfx = false) ∧
      (jsStartsWith (normalizePathOnly p) pfx = true →
        normalizeSecurePath p pfx = Except.ok (normalizePathOnly p)))) ∧
    normalizeSecurePath "/files/../etc/passwd" "/files/" = Except.error
      "Path traversal attempt detected. Path must start with: /files/" ∧
    normalizeSecurePath "/files/a/../b.txt" "/files/" =
      Except.ok "/files/b.txt" := by
  refine ⟨?_, by decide, by decide⟩
  intro p pfx hp hpfx htp htpfx hnull
  rw [normalizeSecurePath]
  rw [if_neg (by simp [hp, htp]), if_neg (by simp [hpfx, htpfx]),
    if_neg (by simp [hnull])]
  by_cases hs : jsStartsWith (normalizePathOnly p) pfx = true
  · rw [if_neg (by simp [hs])]
    constructor
    · constructor
      · intro h; cases h
      · intro h; rw [h] at hs; cases hs
    · intro _; rfl
  · rw [if_pos (by simpa using hs)]
    constructor
    · constructor
      · intro _; simpa using hs
      · intro _; rfl
    · intro h; exact absurd h hs

theorem c8_normalize_path_amended_witness :
    normalizeSecurePath "/files/a/../b.txt" "/files/" =
      Except.ok (normalizePathOnly "/files/a/../b.txt") :=
  (c8_normalize_path_amended.1 "/files/a/../b.txt" "/files/" (by decide)
    (by decide) (by decide) (by decide) (by decide)).2 (by decide)

/-- C9 counterexample: a capacity-1 cache whose first-inserted key is the
empty string does not evict it on the next insertion (the source's
truthiness guard skips deletion), so both entries are retained and the
strict first-in-first-out eviction claim fails. -/
theorem c9_url_cache_counterexample :
    URLCache.set 1 (URLCache.set 1 ([] : List (String × Nat)) "" 0) "k" 1 =
      [("", 0), ("k", 1)] ∧
    URLCache.get 1 [("", (0 : Nat)), ("k", 1)] "" = some 0 ∧
    URLCache.get 1 [("", (0 : Nat)), ("k", 1)] "k" = some 1 := by decide

/-- C9 amended: capacity 0 disables the cache (get and set are no-ops);
inserting at most `capacity` distinct keys retains all of them; and
inserting `capacity + 1` distinct keys evicts exactly the first-inserted
key and retains the rest, provided that first key is not the empty string
(an empty first key is never evicted because of the source's truthiness
guard). -/
theorem c9_url_cache_amended :
    (∀ (V : Type) (cache : List (String × V)) (k : String) (v : V),
      URLCache.get 0 cache k = none ∧ URLCache.set 0 cache k v = cache) ∧
    (∀ (V : Type) (c : Nat) (f : String → V) (ks : List String),
      ks.Nodup → ks.length ≤ c →
      ∀ k ∈ ks, URLCache.get c (insertKeys c f ks) k = some (f k)) ∧
    (∀ (V : Type) (c : Nat) (f : String → V) (k0 : String) (ks : List String),
      (k0 :: ks).Nodup → (k0 :: ks).length = c + 1 → k0 ≠ "" →
      URLCache.get c (insertKeys c f (k0 :: ks)) k0 = none ∧
      ∀ k ∈ ks, URLCache.get c (insertKeys c f (k0 :: ks)) k = some (f k)) := by
  refine ⟨?_, ?_, ?_⟩
  · intro V cache k v
    constructor
    · rw [URLCache.get, if_pos rfl]
    · rw [URLCache.set.eq_def, if_pos rfl]
  · intro V c f ks hnd hlen k hk
    have hc0 : c ≠ 0 := by
      intro h
      rw [h] at hlen
      have h2 := List.length_eq_zero.mp (Nat.le_zero.mp hlen)
      rw [h2] at hk
      cases hk
    rw [insertKeys, cacheFill c f ks [] (by simp) hnd (by simpa using hlen)]
    rw [URLCache.get, if_neg hc0]
    simpa using mapGet_map_mem ks f k hk hnd
  · intro V c f k0 ks hnd hlen hk0
    rcases Nat.eq_zero_or_pos c with hc | hc
    · subst hc
      simp only [List.length_cons] at hlen
      have h2 : ks = [] := List.length_eq_zero.mp (by omega)
      subst h2
      constructor
      · rw [URLCache.get, if_pos rfl]
      · intro k hk; cases hk
    · have hc0 : c ≠ 0 := by omega
      have hks : ks ≠ [] := by
        intro h
        rw [h] at hlen
        simp at hlen
        omega
      rcases List.eq_nil_or_concat ks with h | ⟨init, kl, h⟩
      · exact absurd h hks
      rw [List.concat_eq_append] at h
      subst h
      have hnd2 := List.nodup_cons.mp hnd
      have hndtail : (init ++ [kl]).Nodup := hnd2.2
      have hndinit : (k0 :: init).Nodup := by
        rw [List.nodup_append] at hndtail
        exact List.nodup_cons.mpr
          ⟨fun h => hnd2.1 (List.mem_append_left _ h), hndtail.1⟩
      have hlen2 : (k0 :: init).length = c := by
        simp only [List.length_cons, List.length_append,
          List.length_nil] at hlen ⊢
        omega
      have hfold1 :
          List.foldl (fun cch k => URLCache.set c cch k (f k)) [] (k0 :: init) =
            (k0 :: init).map (fun k => (k, f k)) := by
        have := cacheFill c f (k0 :: init) [] (by simp) hndinit
          (by simp only [List.length_nil]; omega)
        simpa using this
      have hk0init : k0 ∉ init := fun h => hnd2.1 (List.mem_append_left _ h)
      have hklinit : kl ∉ init := by
        have h2 := hnd2.2
        rw [List.nodup_append] at h2
        intro h
        exact h2.2.2 h (List.mem_singleton_self kl)
      have hklk0 : kl ≠ k0 := by
        intro h
        exact hnd2.1
          (by rw [← h]; exact List.mem_append_right _ (List.mem_singleton_self kl))
      have hsetlast :
          URLCache.set c ((k0 :: init).map (fun k => (k, f k))) kl (f kl) =
            (init ++ [kl]).map (fun k => (k, f k)) := by
        rw [URLCache.set.eq_def, if_neg hc0]
        have hgeq : ((k0 :: init).map (fun k : String => (k, f k))).length
            ≥ c := by
          rw [List.length_map, hlen2]
        rw [if_pos hgeq]
        simp only [List.map_cons]
        rw [if_neg hk0]
        have hdel :
            mapDelete ((k0, f k0) :: init.map (fun k => (k, f k))) k0 =
              init.map (fun k => (k, f k)) := by
          have hstep : mapDelete ((k0, f k0) :: init.map (fun k => (k, f k)))
              k0 = mapDelete (init.map (fun k => (k, f k))) k0 := by
            simp [mapDelete, List.filter]
          rw [hstep, mapDelete_map init f k0 hk0init]
        rw [hdel, mapSet_append _ kl (f kl) (by simpa using hklinit)]
        simp
      have hsplit : k0 :: (init ++ [kl]) = (k0 :: init) ++ [kl] := by simp
      constructor
      · rw [insertKeys, hsplit, List.foldl_append, hfold1]
        simp only [List.foldl_cons, List.foldl_nil]
        rw [hsetlast, URLCache.get, if_neg hc0]
        exact mapGet_map_none _ f k0 (by
          simp only [List.mem_append, List.mem_singleton]
          push_neg
          exact ⟨hk0init, fun h => hklk0 h.symm⟩)
      · intro k hk
        rw [insertKeys, hsplit, List.foldl_append, hfold1]
        simp only [List.foldl_cons, List.foldl_nil]
        rw [hsetlast, URLCache.get, if_neg hc0]
        exact mapGet_map_mem _ f k hk hndtail

theorem c9_url_cache_amended_witness :
    URLCache.get 2 (insertKeys 2 (fun _ => (0 : Nat)) ["a", "b", "c"]) "a" =
      none :=
  (c9_url_cache_amended.2.2 Nat 2 (fun _ => (0 : Nat)) "a" ["b", "c"]
    (by decide) (by decide) (by decide)).1

/-- C10: when redirects are disabled and the outbound response arrives
with a 3xx status, the response is passed through to the caller as a
success and the afterResponse hook is not invoked, even when supplied. -/
theorem c10_redirect_pass_through (cfg : ProxyConfig) (st : CBState)
    (env : CallEnv) (r : Resp)
    (hfr : cfg.followRedirects = false)
    (hbr : env.hooks.beforeRequest.isThrow = false)
    (hbcb : env.hooks.beforeCircuitBreakerExecution.isThrow = false)
    (hacb : env.hooks.afterCircuitBreakerExecution.isThrow = false)
    (hprep : env.prep = .ok ())
    (htf : env.timerFirst = false)
    (hfo : env.fetch = .resolved r)
    (h3 : 300 ≤ r.status) (h4 : r.status < 400)
    (hnb : st.state ≠ .OPEN ∨
      env.now - st.lastFailureTime > cfg.cb.resetTimeout) :
    (FetchProxy.proxy cfg st env).result = .ok (r, false) ∧
    HookEv.afterResponse ∉ (FetchProxy.proxy cfg st env).events := by
  obtain ⟨hk, prep, fo, tf, now⟩ := env
  simp only at hbr hbcb hacb hprep htf hfo hnb
  subst hprep
  subst htf
  subst hfo
  have hinner : innerOperation cfg.followRedirects hk (Except.ok ())
      (.resolved r) = ⟨.ok r, [], true⟩ := by
    rw [innerOperation]
    rw [executeRequest]
    rw [if_pos (show (¬ (cfg.followRedirects = true)) ∧ 300 ≤ r.status ∧
      r.status < 400 from ⟨by simp [hfr], h3, h4⟩)]
    dsimp only
    rw [if_neg (by omega)]
  rw [proxy_main_eq cfg st hk _ _ _ now hbr hbcb, hinner]
  simp only [Bool.and_false, Bool.false_and]
  obtain ⟨st2, hexec⟩ := cb_execute_ok cfg.cb st now r hnb
  rw [show (if (false = true) then
      (.error circuitTimeoutError : Except JsError Resp)
    else ((⟨.ok r, [], true⟩ : ExecResult).result)) =
      (.ok r : Except JsError Resp) from rfl]
  rw [hexec]
  exact proxyFinish_redirect_ok hk _ hacb
    (by
      cases hb1 : hk.beforeRequest.isPresent <;>
        cases hb2 : hk.beforeCircuitBreakerExecution.isPresent <;>
        simp) r st2

theorem c10_redirect_pass_through_witness :
    (FetchProxy.proxy ⟨false, ⟨5, 60000, 5000, true⟩⟩ initialCBState
      ⟨allOkHooks, .ok (), .resolved ⟨302, "Found", ""⟩, false, 0⟩).result =
      .ok (⟨302, "Found", ""⟩, false) ∧
    HookEv.afterResponse ∉
      (FetchProxy.proxy ⟨false, ⟨5, 60000, 5000, true⟩⟩ initialCBState
        ⟨allOkHooks, .ok (), .resolved ⟨302, "Found", ""⟩, false, 0⟩).events :=
  c10_redirect_pass_through ⟨false, ⟨5, 60000, 5000, true⟩⟩ initialCBState
    ⟨allOkHooks, .ok (), .resolved ⟨302, "Found", ""⟩, false, 0⟩
    ⟨302, "Found", ""⟩ rfl rfl rfl rfl rfl rfl rfl (by decide) (by decide)
    (Or.inl (by decide))

end FetchGate
